import Mathlib

/-!
Verification of the analytics-module-template repository.

The image-processing function `segment`
(src/amod_template/analytics/bright_pixel_segmentation.py) and the
specification constant `SPEC` (src/amod_template/specification.py) are
translated directly from the source.  Images are nested lists of natural
numbers (rows of pixels of channel values); the floating-point channel
mean computed by `image.mean(2)` is modelled exactly as a rational.

The runtime contract checker `Module.checktype` lives in the external
`amodule` package, whose sources are not part of this repository; it is
modelled from the specification (see the `Modelled from the spec:`
definitions below).
-/

set_option autoImplicit false

namespace AmodTemplate

abbrev Image := List (List (List ℕ))
abbrev Mask := List (List ℕ)

/-- The mean of the channel values of a pixel, `image.mean(2)` per pixel.
NumPy computes this in floating point; it is modelled exactly as a
rational (for the empty channel axis, NumPy yields NaN and every `>`
comparison on it is false; the Lean convention `0 / 0 = 0` is reconciled
in the theorems by requiring at least one channel where it matters). -/
def channelMean (px : List ℕ) : ℚ :=
  (px.sum : ℚ) / px.length

/-- Line `mean_img = image.mean(2)` of `segment`. -/
def meanImg (image : Image) : List (List ℚ) :=
  image.map (fun row => row.map channelMean)

/-- Line `is_bright = mean_img > threshold` of `segment` (elementwise
strict comparison). -/
def isBright (image : Image) (threshold : ℚ) : List (List Bool) :=
  (meanImg image).map (fun row => row.map (fun m => decide (m > threshold)))

/-- Line `mask = np.zeros(image.shape[:2])` of `segment`, a fresh all-zero
uint8 array of shape (h, w). -/
def zerosMask (image : Image) : Mask :=
  List.replicate image.length (List.replicate (image.headD []).length 0)

/-- Line `mask[is_bright] = 255` of `segment`: boolean-mask assignment
writes 255 at every
position where the boolean array is true and leaves the rest alone. -/
def setBright (mask : Mask) (bright : List (List Bool)) : Mask :=
  List.zipWith (List.zipWith (fun m b => if b then (255 : ℕ) else m)) mask bright

/-- Function `segment` from
src/amod_template/analytics/bright_pixel_segmentation.py:
returns the segmentation mask and the number of bright pixels. -/
def segment (image : Image) (threshold : ℚ) : Mask × ℕ :=
  let is_bright := isBright image threshold
  let mask := setBright (zerosMask image) is_bright
  (mask, (is_bright.map (fun row => row.countP id)).sum)

/-- The image is a genuine array of shape (h, w, c): every row has `w`
pixels and every pixel has `c` channels. -/
def WellShaped (image : Image) (h w c : ℕ) : Prop :=
  image.length = h ∧ ∀ row ∈ image, row.length = w ∧ ∀ px ∈ row, px.length = c

instance (image : Image) (h w c : ℕ) : Decidable (WellShaped image h w c) := by
  unfold WellShaped; infer_instance

/-! ## The specification structure (src/amod_template/specification.py) -/

structure Category where
  name : String
  labels : List String
deriving DecidableEq, Repr

structure ParamSpec where
  name : String
  description : String
  type : String
  category : Option Category
deriving DecidableEq, Repr

structure TestCase where
  image_file : String
  threshold : ℤ
  mask_file : String
  n_bright : ℕ
deriving DecidableEq, Repr

structure MethodSpec where
  input : List ParamSpec
  output : List ParamSpec
  test_cases : List TestCase
deriving DecidableEq, Repr

structure ModuleInfo where
  author : String
  author_email : String
  description : String
  name : String
  url : String
  version : String
  dependencies : List String
deriving DecidableEq, Repr

structure Spec where
  methods : List (String × MethodSpec)
  module : ModuleInfo
deriving DecidableEq, Repr

/-- Constant `SPEC` from src/amod_template/specification.py, verbatim. -/
def SPEC : Spec :=
  { methods :=
      [("process",
        { input :=
            [{ name := "image",
               description := "RGB image of shape (h,w,3)",
               type := "ndarray/uint8///3",
               category := none },
             { name := "threshold",
               description := "Threshold for bright pixels",
               type := "numeric/int",
               category := none }],
          output :=
            [{ name := "mask",
               description := "Gray-scale segmentation mask of shape (h,w)",
               type := "ndarray/uint8//",
               category := some { name := "segmentation",
                                  labels := ["background", "bright pixels"] } },
             { name := "#bright_pixels",
               description := "Number of bright pixels",
               type := "numeric/int",
               category := some { name := "measurement", labels := [] } }],
          test_cases :=
            [{ image_file := "image.png", threshold := 130,
               mask_file := "mask_130.png", n_bright := 8865 },
             { image_file := "image.png", threshold := 150,
               mask_file := "mask_150.png", n_bright := 3593 },
             { image_file := "image.png", threshold := 0,
               mask_file := "mask_0.png", n_bright := 108204 },
             { image_file := "image.png", threshold := 255,
               mask_file := "mask_255.png", n_bright := 0 }] })],
    module :=
      { author := "Stefan Maetschke",
        author_email := "stefan.maetschke@gmail.com",
        description := "Segments bright pixels.",
        name := "Bright Pixel Segmenter",
        url := "git@github.com:maet3608/analytics-module-template.git",
        version := "1.0.0",
        dependencies := ["mmacommon>=1.3.5"] } }

/-! ## The contract validator

`Module.checktype` comes from the external `amodule.base` package, whose
code is not part of this repository.  The definitions below are modelled
from the description of the validator in the specification (descriptor
grammar, matching algorithm, error taxonomy). -/

/-- A runtime value handed to the validator: an integer scalar, a
floating-point scalar (modelled as a rational), or an array carrying its
element-type name and its data (rank 2 or rank 3, the ranks this module
exchanges). -/
inductive Value where
  | vint (n : ℤ)
  | vfloat (q : ℚ)
  | varr2 (dtype : String) (data : List (List ℕ))
  | varr3 (dtype : String) (data : Image)
deriving DecidableEq

/-- The shape of a value: empty for scalars, the ordered list of
dimension sizes for arrays. -/
def Value.shape : Value → List ℕ
  | .vint _ => []
  | .vfloat _ => []
  | .varr2 _ d => [d.length, (d.headD []).length]
  | .varr3 _ d => [d.length, (d.headD []).length, ((d.headD []).headD []).length]

/-- The element-type name of a value (empty for scalars). -/
def Value.dtype : Value → String
  | .vint _ => ""
  | .vfloat _ => ""
  | .varr2 dt _ => dt
  | .varr3 dt _ => dt

def Value.isArr : Value → Bool
  | .varr2 _ _ => true
  | .varr3 _ _ => true
  | _ => false

/-- Modelled from the spec: the parsed form of a compact type-descriptor
string — base kind, element type (empty = unconstrained) and the ordered
list of dimension constraints (`none` = unconstrained). -/
structure Descriptor where
  kind : String
  etype : String
  dims : List (Option ℕ)
deriving DecidableEq

/-- Split a character list at every slash (the token separator of the
descriptor grammar). -/
def splitSlash : List Char → List (List Char)
  | [] => [[]]
  | c :: cs =>
    let r := splitSlash cs
    if c = '/' then [] :: r
    else (c :: r.headD []) :: r.tail

/-- A token is a fixed dimension exactly when it is a nonempty digit
string; anything else (in particular the empty token) is unconstrained. -/
def charsToNat? (cs : List Char) : Option ℕ :=
  if cs.isEmpty then none
  else if cs.all Char.isDigit then
    some (cs.foldl (fun n c => 10 * n + (c.toNat - 48)) 0)
  else none

/-- Modelled from the spec: parse a compact descriptor string into its
base kind, element type and dimension-constraint list
(`"ndarray/uint8///3"` ↦ kind `ndarray`, etype `uint8`,
dims `[none, none, some 3]`). -/
def parseDescriptor (s : String) : Descriptor :=
  let toks := splitSlash s.data
  { kind := String.mk (toks.headD []),
    etype := String.mk ((toks.drop 1).headD []),
    dims := (toks.drop 2).map charsToNat? }

/-- Walk reversed constraint and shape lists in lockstep: a fixed
constraint must find an equal axis, an unconstrained one is skipped. -/
def checkDimsRev : List (Option ℕ) → List ℕ → Bool
  | [], _ => true
  | none :: cs, [] => checkDimsRev cs []
  | none :: cs, _ :: ss => checkDimsRev cs ss
  | some _ :: _, [] => false
  | some d :: cs, s :: ss => s == d && checkDimsRev cs ss

/-- Modelled from the spec: the dimension-constraint list is aligned to
the trailing axes of the observed shape; leading axes are unrestricted. -/
def checkDims (cons : List (Option ℕ)) (shape : List ℕ) : Bool :=
  checkDimsRev cons.reverse shape.reverse

/-- Modelled from the spec: does a runtime value satisfy a parsed
descriptor?  `numeric` accepts the matching scalar kind (any scalar when
the element type is unconstrained); `ndarray` requires an array whose
element type matches (when constrained) and whose trailing dimensions
satisfy the constraint list. -/
def checkValue (d : Descriptor) (v : Value) : Bool :=
  if d.kind == "numeric" then
    match v with
    | .vint _ => d.etype == "" || d.etype == "int"
    | .vfloat _ => d.etype == "" || d.etype == "float"
    | _ => false
  else if d.kind == "ndarray" then
    v.isArr && (d.etype == "" || d.etype == v.dtype) && checkDims d.dims v.shape
  else false

/-- Modelled from the spec: the validation error taxonomy. -/
inductive VErr where
  | UnknownMethod (method : String)
  | ArityMismatch (expected actual : ℕ)
  | TypeMismatch (param : String) (expected : String) (observed : Value)
deriving DecidableEq

def lookupMethod (spec : Spec) (method : String) : Option MethodSpec :=
  (spec.methods.find? (fun p => p.1 == method)).map Prod.snd

/-- Check declared parameters against values positionally, raising
`TypeMismatch` (naming the parameter, the expected descriptor and the
observed value) at the first failure. -/
def checkParams : List (ParamSpec × Value) → Except VErr Unit
  | [] => .ok ()
  | (p, v) :: rest =>
    if checkValue (parseDescriptor p.type) v then checkParams rest
    else .error (.TypeMismatch p.name p.type v)

/-- Modelled from the spec: `validate(spec, method, direction, *values)`
(the behaviour of the external `Module.checktype`).  Unknown method ↦
`UnknownMethod`; wrong value count ↦ `ArityMismatch`; then each value is
checked against its declared descriptor. -/
def validate (spec : Spec) (method direction : String) (values : List Value) :
    Except VErr Unit :=
  match lookupMethod spec method with
  | none => .error (.UnknownMethod method)
  | some ms =>
    let params := if direction == "input" then ms.input else ms.output
    if values.length ≠ params.length then
      .error (.ArityMismatch params.length values.length)
    else checkParams (params.zip values)

/-- The numeric content of a scalar value.  (Only reached once input
validation has accepted the value as `numeric`, so the array branch is
never consulted.) -/
def Value.toQ : Value → ℚ
  | .vint n => n
  | .vfloat q => q
  | _ => 0

/-- Method `process` of class `Detector` from src/amod_template/module.py,
parameterised
by the processing function it calls between the two `checktype` calls:
validate the inputs, run the processing function, validate the outputs,
return the (mask, count) pair.  The mask produced by `segment` is a
uint8 array. -/
def processWith (f : Image → ℚ → Mask × ℕ) (dtype : String) (image : Image)
    (threshold : Value) : Except VErr (Mask × ℕ) := do
  let _ ← validate SPEC ("process") ("input") [Value.varr3 dtype image, threshold]
  let r := f image threshold.toQ
  let _ ← validate SPEC ("process") ("output") [Value.varr2 ("uint8") r.1, Value.vint r.2]
  return r

/-- Method `Detector.process`: the processing function is `segment`. -/
def Detector.process (dtype : String) (image : Image) (threshold : Value) :
    Except VErr (Mask × ℕ) :=
  processWith segment dtype image threshold

/-! ## Allocation-explicit model of `segment`

For the frame property (the input image is never written to) the NumPy
arrays are given explicit storage: a store of arrays, with every
allocation (`image.mean(2)`, the comparison result, `np.zeros`)
appending a fresh entry, and the one in-place write of the function
(`mask[is_bright] = 255`) updating its target entry. -/

/-- A stored array: a rank-3 uint8 image, a rank-2 float array, a rank-2
boolean array, or a rank-2 uint8 mask. -/
inductive ArrVal where
  | i3 (d : Image)
  | f2 (d : List (List ℚ))
  | b2 (d : List (List Bool))
  | u2 (d : Mask)
deriving DecidableEq

/-- Function `segment` over an explicit store: reads the image at
`imageRef`, appends the three freshly allocated arrays, performs the
masked write in place on the mask entry, and returns the final store,
the reference of the mask and the bright-pixel count. -/
def segmentHeap (store : List ArrVal) (imageRef : ℕ) (t : ℚ) :
    List ArrVal × ℕ × ℕ :=
  match store[imageRef]? with
  | some (.i3 image) =>
    let store1 := store ++ [.f2 (meanImg image)]
    let store2 := store1 ++ [.b2 (isBright image t)]
    let maskRef := store2.length
    let store3 := store2 ++ [.u2 (zerosMask image)]
    let store4 := store3.set maskRef (.u2 (setBright (zerosMask image) (isBright image t)))
    (store4, maskRef, ((isBright image t).map (fun row => row.countP id)).sum)
  | _ => (store, 0, 0)

deriving instance DecidableEq for Except

/-! ## Helper lemmas -/

lemma getD_map {α β : Type} (f : α → β) (l : List α) (i : ℕ) (hi : i < l.length)
    (d : β) (e : α) : (l.map f).getD i d = f (l.getD i e) := by
  induction l generalizing i with
  | nil => simp at hi
  | cons a as ih =>
    cases i with
    | zero => simp
    | succ k =>
      simp only [List.map_cons, List.getD_cons_succ]
      exact ih k (by simpa using hi)

lemma zipWith_replicate_eq_map {α β γ : Type} (f : α → β → γ) (a : α) (l : List β) :
    List.zipWith f (List.replicate l.length a) l = l.map (f a) := by
  induction l with
  | nil => rfl
  | cons b bs ih => simpa [List.replicate_succ] using ih

lemma mem_zipWith {α β γ : Type} (f : α → β → γ) {x : γ} :
    ∀ {as : List α} {bs : List β}, x ∈ List.zipWith f as bs →
      ∃ a ∈ as, ∃ b ∈ bs, x = f a b := by
  intro as
  induction as with
  | nil => intro bs h; simp at h
  | cons a as ih =>
    intro bs h
    cases bs with
    | nil => simp at h
    | cons b bs =>
      simp only [List.zipWith_cons_cons, List.mem_cons] at h
      rcases h with h | h
      · exact ⟨a, by simp, b, by simp, h⟩
      · rcases ih h with ⟨a1, ha1, b1, hb1, hx⟩
        exact ⟨a1, by simp [ha1], b1, by simp [hb1], hx⟩

lemma sum_eq_sum_range (l : List ℕ) :
    l.sum = ∑ i ∈ Finset.range l.length, l.getD i 0 := by
  induction l with
  | nil => simp
  | cons a as ih =>
    rw [List.sum_cons, List.length_cons, Finset.sum_range_succ', ih]
    simp [add_comm]

lemma countP_eq_sum_range {α : Type} (p : α → Bool) (l : List α) (e : α) :
    l.countP p = ∑ j ∈ Finset.range l.length, if p (l.getD j e) then 1 else 0 := by
  induction l with
  | nil => simp
  | cons a as ih =>
    rw [List.countP_cons, List.length_cons, Finset.sum_range_succ', ih]
    simp [add_comm]

/-- The two-dimensional composition of `isBright`. -/
lemma isBright_eq (image : Image) (t : ℚ) :
    isBright image t =
      image.map (fun row => row.map (fun px => decide (channelMean px > t))) := by
  simp [isBright, meanImg, List.map_map]

lemma length_isBright (image : Image) (t : ℚ) :
    (isBright image t).length = image.length := by
  simp [isBright, meanImg]

/-- Under a well-shaped image the zero-initialise-then-masked-write mask
is the elementwise image of the boolean array. -/
lemma mask_eq_map (image : Image) (t : ℚ) (h w c : ℕ) (hs : WellShaped image h w c) :
    (segment image t).1 =
      (isBright image t).map
        (fun brow => brow.map (fun b => if b then (255 : ℕ) else 0)) := by
  obtain ⟨hlen, hrow⟩ := hs
  show setBright (zerosMask image) (isBright image t) = _
  unfold setBright zerosMask
  have hb : (isBright image t).length = image.length := length_isBright image t
  rw [show image.length = (isBright image t).length from hb.symm,
    zipWith_replicate_eq_map]
  apply List.map_congr_left
  intro brow hbrow
  have hbw : brow.length = (image.headD []).length := by
    rw [isBright_eq] at hbrow
    rcases List.mem_map.mp hbrow with ⟨row, hrowmem, hroweq⟩
    cases image with
    | nil => simp at hrowmem
    | cons r rs =>
      have h1 : row.length = w := (hrow row hrowmem).1
      have h2 : r.length = w := (hrow r (by simp)).1
      simp [← hroweq, h1, h2]
  rw [← hbw, zipWith_replicate_eq_map]

lemma getD_mem {α : Type} (l : List α) (i : ℕ) (hi : i < l.length) (d : α) :
    l.getD i d ∈ l := by
  rw [List.getD_eq_getElem l d hi]
  exact List.getElem_mem hi

lemma isBright_row_length (image : Image) (t : ℚ) (h w c : ℕ)
    (hs : WellShaped image h w c) :
    ∀ brow ∈ isBright image t, brow.length = w := by
  rw [isBright_eq]
  intro brow hb
  rcases List.mem_map.mp hb with ⟨row, hm, hroweq⟩
  simp [← hroweq, (hs.2 row hm).1]

lemma row_mem_of_lt (image : Image) (h w c i : ℕ) (hs : WellShaped image h w c)
    (hi : i < h) : image.getD i [] ∈ image ∧ (image.getD i []).length = w := by
  have hmem : image.getD i [] ∈ image := getD_mem image i (by rw [hs.1]; exact hi) []
  exact ⟨hmem, (hs.2 _ hmem).1⟩

/-- C1: for every image of shape (h, w, c) and every threshold,
`segment` returns a mask of shape (h, w) with uint8 entries, set to 255
at exactly the positions whose channel mean strictly exceeds the
threshold and 0 elsewhere, together with the number of such positions. -/
theorem segment_is_mean_threshold (image : Image) (t : ℚ) (h w c : ℕ)
    (hs : WellShaped image h w c) (_hc : 0 < c) :
    ((segment image t).1.length = h ∧ ∀ row ∈ (segment image t).1, row.length = w) ∧
    (∀ row ∈ (segment image t).1, ∀ x ∈ row, x < 256) ∧
    (∀ i, i < h → ∀ j, j < w →
      ((segment image t).1.getD i []).getD j 0 =
        if channelMean ((image.getD i []).getD j []) > t then 255 else 0) ∧
    (segment image t).2 =
      ((Finset.range h ×ˢ Finset.range w).filter
        (fun p => channelMean ((image.getD p.1 []).getD p.2 []) > t)).card := by
  have hmask := mask_eq_map image t h w c hs
  have hbl : (isBright image t).length = image.length := length_isBright image t
  have hblh : (isBright image t).length = h := by rw [hbl, hs.1]
  have hbrow := isBright_row_length image t h w c hs
  refine ⟨⟨?_, ?_⟩, ?_, ?_, ?_⟩
  · rw [hmask]; simpa using hblh
  · rw [hmask]
    intro row hr
    rcases List.mem_map.mp hr with ⟨brow, hb, hroweq⟩
    simp [← hroweq, hbrow brow hb]
  · rw [hmask]
    intro row hr x hx
    rcases List.mem_map.mp hr with ⟨brow, _, hroweq⟩
    rw [← hroweq] at hx
    rcases List.mem_map.mp hx with ⟨b, _, hxeq⟩
    cases b <;> simp [← hxeq]
  · intro i hi j hj
    rw [hmask, getD_map _ _ i (by rw [hblh]; exact hi) _ []]
    have hiblen : (isBright image t).getD i [] =
        (image.getD i []).map (fun px => decide (channelMean px > t)) := by
      rw [isBright_eq, getD_map _ _ i (by rw [hs.1]; exact hi) _ []]
    rw [hiblen]
    obtain ⟨hmem, hlen⟩ := row_mem_of_lt image h w c i hs hi
    rw [getD_map _ _ j (by simp only [List.length_map]; rw [hlen]; exact hj) 0 false,
      getD_map _ _ j (by rw [hlen]; exact hj) false ([] : List ℕ)]
    by_cases hp : channelMean ((image.getD i []).getD j []) > t <;> simp [hp]
  · show ((isBright image t).map (fun row => row.countP id)).sum = _
    rw [sum_eq_sum_range]
    have hlenmap : ((isBright image t).map (fun row => row.countP id)).length = h := by
      simpa using hblh
    rw [hlenmap, Finset.card_filter, Finset.sum_product]
    apply Finset.sum_congr rfl
    intro i hi
    have hi2 := Finset.mem_range.mp hi
    rw [getD_map _ _ i (by rw [hblh]; exact hi2) _ []]
    have hiblen : (isBright image t).getD i [] =
        (image.getD i []).map (fun px => decide (channelMean px > t)) := by
      rw [isBright_eq, getD_map _ _ i (by rw [hs.1]; exact hi2) _ []]
    obtain ⟨hmem, hlen⟩ := row_mem_of_lt image h w c i hs hi2
    rw [hiblen, List.countP_map,
      countP_eq_sum_range _ _ ([] : List ℕ)]
    rw [show ((image.getD i []).length) = w from hlen]
    apply Finset.sum_congr rfl
    intro j hj
    have hj2 := Finset.mem_range.mp hj
    by_cases hp : channelMean ((image.getD i []).getD j []) > t <;>
      simp [hp, Function.comp]

lemma count_flatten_eq (ll : List (List ℕ)) (x : ℕ) :
    ll.flatten.count x = (ll.map (fun l => l.count x)).sum := by
  induction ll with
  | nil => rfl
  | cons l ls ih => simp [List.count_append, ih]

lemma count_255_map_ite (brow : List Bool) :
    (brow.map (fun b => if b then (255 : ℕ) else 0)).count 255 = brow.countP id := by
  induction brow with
  | nil => rfl
  | cons b bs ih => cases b <;> simp [List.count_cons, List.countP_cons, ih]

/-- C6: the two outputs of `segment` are mutually consistent: the count
equals the number of 255 entries of the mask, and every mask entry is 0
or 255. -/
theorem segment_outputs_consistent (image : Image) (t : ℚ) (h w c : ℕ)
    (hs : WellShaped image h w c) :
    (segment image t).2 = (segment image t).1.flatten.count 255 ∧
    ∀ x ∈ (segment image t).1.flatten, x = 0 ∨ x = 255 := by
  have hmask := mask_eq_map image t h w c hs
  constructor
  · rw [hmask, count_flatten_eq, List.map_map]
    show ((isBright image t).map (fun row => row.countP id)).sum = _
    congr 1
    apply List.map_congr_left
    intro brow _
    exact (count_255_map_ite brow).symm
  · rw [hmask]
    intro x hx
    rcases List.mem_flatten.mp hx with ⟨row, hrow, hxrow⟩
    rcases List.mem_map.mp hrow with ⟨brow, _, hroweq⟩
    rw [← hroweq] at hxrow
    rcases List.mem_map.mp hxrow with ⟨b, _, hxeq⟩
    cases b <;> simp [← hxeq]

lemma channelMean_le_255 (px : List ℕ) (hu : ∀ v ∈ px, v ≤ 255) :
    channelMean px ≤ 255 := by
  unfold channelMean
  rcases Nat.eq_zero_or_pos px.length with h0 | hpos
  · simp [h0]
  · rw [div_le_iff₀ (by exact_mod_cast hpos)]
    have hsum : px.sum ≤ px.length * 255 := by
      simpa [smul_eq_mul] using List.sum_le_card_nsmul px 255 hu
    calc (px.sum : ℚ) ≤ (px.length * 255 : ℕ) := by exact_mod_cast hsum
      _ = 255 * (px.length : ℚ) := by push_cast; ring

lemma isBright_all_false (image : Image) (t : ℚ)
    (hu : ∀ row ∈ image, ∀ px ∈ row, ∀ v ∈ px, v ≤ 255) (ht : (255 : ℚ) ≤ t) :
    ∀ brow ∈ isBright image t, ∀ b ∈ brow, b = false := by
  rw [isBright_eq]
  intro brow hbrow b hb
  rcases List.mem_map.mp hbrow with ⟨row, hrow, hroweq⟩
  rw [← hroweq] at hb
  rcases List.mem_map.mp hb with ⟨px, hpx, hbeq⟩
  have hle : channelMean px ≤ 255 := channelMean_le_255 px (hu row hrow px hpx)
  simp only [← hbeq, decide_eq_false_iff_not]
  exact not_lt.mpr (hle.trans ht)

/-- C10: on a uint8 image (all channel values at most 255) any threshold
of at least 255 classifies no pixel as bright: the count is 0 and the
mask is all zero. -/
theorem segment_threshold_ge_255 (image : Image) (t : ℚ)
    (hu : ∀ row ∈ image, ∀ px ∈ row, ∀ v ∈ px, v ≤ 255) (ht : (255 : ℚ) ≤ t) :
    (segment image t).2 = 0 ∧ ∀ row ∈ (segment image t).1, ∀ x ∈ row, x = 0 := by
  have hfalse := isBright_all_false image t hu ht
  constructor
  · show ((isBright image t).map (fun row => row.countP id)).sum = 0
    apply List.sum_eq_zero
    intro x hx
    rcases List.mem_map.mp hx with ⟨brow, hbrow, hxeq⟩
    rw [← hxeq]
    rw [List.countP_eq_zero]
    intro b hb
    simp [hfalse brow hbrow b hb]
  · intro row hrow x hx
    rcases mem_zipWith _ hrow with ⟨r0, hr0, brow, hbrow, hroweq⟩
    rw [hroweq] at hx
    rcases mem_zipWith _ hx with ⟨m, hm, b, hb, hxeq⟩
    have hm0 : m = 0 := by
      have := List.eq_of_mem_replicate hr0
      rw [this] at hm
      exact List.eq_of_mem_replicate hm
    have hb0 : b = false := hfalse brow hbrow b hb
    rw [hxeq, hm0, hb0]
    rfl

/-- C9: the allocation-explicit `segment` never writes to its input: the
store entry of the image is unchanged, the mask reference is fresh
(outside the input store), and it holds exactly the mask `segment`
computes. -/
theorem segmentHeap_no_input_mutation (store : List ArrVal) (imageRef : ℕ)
    (t : ℚ) (image : Image) (h : store[imageRef]? = some (.i3 image)) :
    (segmentHeap store imageRef t).1[imageRef]? = some (.i3 image) ∧
    store.length ≤ (segmentHeap store imageRef t).2.1 ∧
    (segmentHeap store imageRef t).1[(segmentHeap store imageRef t).2.1]? =
      some (.u2 (segment image t).1) ∧
    (segmentHeap store imageRef t).2.2 = (segment image t).2 := by
  have hlt : imageRef < store.length := by
    by_contra hge
    rw [List.getElem?_eq_none (Nat.le_of_not_lt hge)] at h
    exact Option.noConfusion h
  simp only [segmentHeap, h]
  refine ⟨?_, ?_, ?_, rfl⟩
  · rw [List.getElem?_set_ne (by simp; omega)]
    rw [List.getElem?_append_left (by simp; omega),
      List.getElem?_append_left (by simp; omega),
      List.getElem?_append_left hlt]
    exact h
  · simp
  · rw [List.getElem?_set_self', List.getElem?_concat_length]
    rfl

/-- Output validation always succeeds for a uint8 mask and an integer
count: the mask descriptor constrains only the element type (both
dimensions are unconstrained) and the count descriptor is an integer. -/
lemma validate_output_ok (mask : Mask) (n : ℤ) :
    validate SPEC ("process") ("output")
      [Value.varr2 ("uint8") mask, Value.vint n] = .ok () := by
  rfl

/-- C2: whenever both validation calls succeed, `Detector.process`
validates the inputs, runs the processing function exactly once
(whatever that function is — the second conjunct shows the result is the
single application of the function that was plugged in), validates the
outputs and returns exactly the pair that `segment` produced. -/
theorem process_calls_segment_once_between_validations (dt : String)
    (image : Image) (tv : Value)
    (h1 : validate SPEC ("process") ("input")
        [Value.varr3 dt image, tv] = .ok ())
    (_h2 : validate SPEC ("process") ("output")
        [Value.varr2 ("uint8") (segment image tv.toQ).1,
         Value.vint ((segment image tv.toQ).2 : ℤ)] = .ok ()) :
    Detector.process dt image tv = .ok (segment image tv.toQ) ∧
    ∀ f : Image → ℚ → Mask × ℕ, processWith f dt image tv = .ok (f image tv.toQ) := by
  constructor
  · show processWith segment dt image tv = _
    simp only [processWith, h1, validate_output_ok]
    rfl
  · intro f
    simp only [processWith, h1, validate_output_ok]
    rfl

/-- C3: if input validation fails, the error is the result of
`Detector.process` — no output pair is produced, and the processing
function is never consulted (the result is the same error for every
processing function). -/
theorem process_input_error_propagates (dt : String) (image : Image)
    (tv : Value) (e : VErr)
    (h : validate SPEC ("process") ("input")
        [Value.varr3 dt image, tv] = .error e) :
    (∀ f : Image → ℚ → Mask × ℕ, processWith f dt image tv = .error e) ∧
    Detector.process dt image tv = .error e := by
  constructor
  · intro f
    simp only [processWith, h]
    rfl
  · show processWith segment dt image tv = _
    simp only [processWith, h]
    rfl

lemma checkDimsRev_append (cs : List (Option ℕ)) :
    ∀ (ss extra : List ℕ), cs.length ≤ ss.length →
      checkDimsRev cs (ss ++ extra) = checkDimsRev cs ss := by
  induction cs with
  | nil => intro ss extra _; rfl
  | cons c cs ih =>
    intro ss extra hle
    cases ss with
    | nil => simp at hle
    | cons s ss =>
      cases c with
      | none => exact ih ss extra (by simpa using hle)
      | some d => simp [checkDimsRev, ih ss extra (by simpa using hle)]

def img_100_120_3 : Image :=
  List.replicate 100 (List.replicate 120 (List.replicate 3 0))

def img_100_120_4 : Image :=
  List.replicate 100 (List.replicate 120 (List.replicate 4 0))

/-- C4: descriptor dimension constraints align with the trailing axes of
the observed shape — prepending any leading axes never changes the
verdict once the shape covers the constraint list — the image descriptor
parses to one fixed trailing constraint of 3, a (100, 120, 3) uint8
array is accepted, and a (100, 120, 4) one is rejected with
`TypeMismatch` on the image parameter. -/
theorem checktype_aligns_trailing_dims :
    (∀ (cons : List (Option ℕ)) (pre shape : List ℕ), cons.length ≤ shape.length →
      checkDims cons (pre ++ shape) = checkDims cons shape) ∧
    parseDescriptor ("ndarray/uint8///3") =
      { kind := "ndarray", etype := "uint8", dims := [none, none, some 3] } ∧
    checkValue (parseDescriptor ("ndarray/uint8///3"))
      (Value.varr3 ("uint8") img_100_120_3) = true ∧
    validate SPEC ("process") ("input")
      [Value.varr3 ("uint8") img_100_120_3, Value.vint 130] = .ok () ∧
    validate SPEC ("process") ("input")
      [Value.varr3 ("uint8") img_100_120_4, Value.vint 130] =
      .error (.TypeMismatch ("image") ("ndarray/uint8///3")
        (Value.varr3 ("uint8") img_100_120_4)) := by
  refine ⟨?_, by rfl, by rfl, by rfl, by rfl⟩
  intro cons pre shape hle
  unfold checkDims
  rw [List.reverse_append]
  exact checkDimsRev_append cons.reverse shape.reverse pre.reverse
    (by simpa using hle)

/-- C7: validation and `Detector.process` are pure functions of their
arguments: any number of repeated calls with the same specification and
values yields the one same outcome, and the specification they consult
is the immutable constant `SPEC` — there is no state to mutate. -/
theorem validate_process_idempotent :
    (∀ (k : ℕ) (m d : String) (vs : List Value),
      (List.range k).map (fun _ => validate SPEC m d vs) =
        List.replicate k (validate SPEC m d vs)) ∧
    (∀ (k : ℕ) (dt : String) (image : Image) (tv : Value),
      (List.range k).map (fun _ => Detector.process dt image tv) =
        List.replicate k (Detector.process dt image tv)) := by
  constructor
  · intro k m d vs
    rw [List.map_const']
    simp
  · intro k dt image tv
    rw [List.map_const']
    simp

/-- C8: in `SPEC`, the input parameter names of method `process` are
exactly image and threshold with no duplicate, and the output parameter
names are exactly mask and #bright_pixels with no duplicate. -/
theorem spec_param_names_unique :
    ∃ ms, lookupMethod SPEC ("process") = some ms ∧
      ms.input.map ParamSpec.name = ["image", "threshold"] ∧
      (ms.input.map ParamSpec.name).Nodup ∧
      ms.output.map ParamSpec.name = ["mask", "#bright_pixels"] ∧
      (ms.output.map ParamSpec.name).Nodup := by
  refine ⟨_, rfl, by rfl, ?_, by rfl, ?_⟩ <;> decide

/-! ## Witnesses: the hypotheses of the theorems above are satisfiable -/

/-- Witness for C1 at the 1×1×1 image [[[9]]] and threshold 5. -/
theorem segment_is_mean_threshold_witness :
    (segment [[[9]]] 5).2 =
      ((Finset.range 1 ×ˢ Finset.range 1).filter
        (fun p => channelMean ((([[[9]]] : Image).getD p.1 []).getD p.2 []) > 5)).card :=
  (segment_is_mean_threshold [[[9]]] 5 1 1 1 (by decide) (by decide)).2.2.2

/-- Witness for C2: a conforming image and integer threshold flow through
both validations to the pair `segment` returns. -/
theorem process_calls_segment_once_witness :
    Detector.process ("uint8") [[[10, 20, 30]]] (Value.vint 130) =
      .ok (segment [[[10, 20, 30]]] (Value.vint 130).toQ) :=
  (process_calls_segment_once_between_validations ("uint8") [[[10, 20, 30]]]
    (Value.vint 130) (by rfl) (validate_output_ok _ _)).1

/-- Witness for C3: a 4-channel image fails input validation and
`Detector.process` surfaces exactly that `TypeMismatch`. -/
theorem process_input_error_propagates_witness :
    Detector.process ("uint8") [[[0, 0, 0, 0]]] (Value.vint 130) =
      .error (.TypeMismatch ("image") ("ndarray/uint8///3")
        (Value.varr3 ("uint8") [[[0, 0, 0, 0]]])) :=
  (process_input_error_propagates ("uint8") [[[0, 0, 0, 0]]] (Value.vint 130)
    (.TypeMismatch ("image") ("ndarray/uint8///3")
      (Value.varr3 ("uint8") [[[0, 0, 0, 0]]])) (by rfl)).2

/-- Witness for C4: prepending leading axes [5, 6] to a covered shape
leaves the verdict unchanged. -/
theorem checktype_aligns_trailing_dims_witness :
    checkDims [none, none, some 3] ([5, 6] ++ [100, 120, 3]) =
      checkDims [none, none, some 3] [100, 120, 3] :=
  checktype_aligns_trailing_dims.1 [none, none, some 3] [5, 6] [100, 120, 3]
    (by decide)

/-- Witness for C6 at the 1×1×1 image [[[9]]] and threshold 5. -/
theorem segment_outputs_consistent_witness :
    (segment [[[9]]] 5).2 = (segment [[[9]]] 5).1.flatten.count 255 ∧
    ∀ x ∈ (segment [[[9]]] 5).1.flatten, x = 0 ∨ x = 255 :=
  segment_outputs_consistent [[[9]]] 5 1 1 1 (by decide)

/-- Witness for C9 at a one-entry store holding the image [[[9]]]. -/
theorem segmentHeap_no_input_mutation_witness :
    (segmentHeap [ArrVal.i3 [[[9]]]] 0 7).1[0]? = some (ArrVal.i3 [[[9]]]) :=
  (segmentHeap_no_input_mutation [ArrVal.i3 [[[9]]]] 0 7 [[[9]]] rfl).1

/-- Witness for C10 at the uint8 image [[[1, 2, 3]]] and threshold 255. -/
theorem segment_threshold_ge_255_witness :
    (segment [[[1, 2, 3]]] 255).2 = 0 ∧
    ∀ row ∈ (segment [[[1, 2, 3]]] 255).1, ∀ x ∈ row, x = 0 :=
  segment_threshold_ge_255 [[[1, 2, 3]]] 255 (by decide) (le_refl 255)

end AmodTemplate
